import Mathlib

/-!
# Verification of the kube-parcel Runner Orchestrator

A shallow embedding, in Lean 4, of the runner orchestrator of the
`tiborv/kube-parcel` repository: the lifecycle state machine
(`pkg/shared`, `StateMachine`), the upload boundary handler
(`pkg/runner/handler.go`), the tar classifier/extractor
(`TarExtractor`), the Helm deployment and test orchestrator
(`pkg/runner/helm.go`), the K3s process manager readiness logic
(`pkg/runner/k3s.go`) and the log bus / websocket observer path.

Strings from the Go side are embedded as `List Char` where character-level
string operations (suffix / separator / substring tests) matter, and as
`String` where only whole-name equality matters.  Side effects (file
writes, subprocess invocations, log broadcasts, lifecycle transitions)
are embedded as explicit event lists; fallible external steps (directory
creation, process start, per-entry I/O, helm install/test exit status)
are parameters of the model.
-/

namespace KubeParcel

/-- Lifecycle states, mirroring `shared.State`
(`StateIdle`, `StateTransferring`, `StateStarting`, `StateReady`). -/
inductive State
  | idle
  | transferring
  | starting
  | ready
deriving DecidableEq, Repr

/-- Per-chart phases, mirroring the `Phase` strings of `shared.ChartStatus`
("Pending", "Installing", "Deployed", "Testing", "Succeeded", "Failed"). -/
inductive Phase
  | pending
  | installing
  | deployed
  | testing
  | succeeded
  | failed
deriving DecidableEq, Repr

/-- Position of a phase along the forward order
Pending → Installing → {Deployed|Failed} → Testing → {Succeeded|Failed}.
`failed` and `succeeded` are both terminal. -/
def Phase.rank : Phase → Nat
  | .pending => 0
  | .installing => 1
  | .deployed => 2
  | .testing => 3
  | .succeeded => 4
  | .failed => 4

/-! ## Boundary handler: `Server.HandleUpload` (handler.go:81-113)

The handler checks the HTTP method, then the idle gate, then transitions
to `Transferring` and runs the extractor; on extractor failure it reverts
to `Idle` and answers 500, on success it spawns the boot pipeline and
answers 202.  The outcome records the HTTP status, the list of
`Transition` calls performed (in order), whether `Extract` was invoked,
and whether the background pipeline was started. -/

structure UploadOutcome where
  httpStatus : Nat
  transitions : List State
  extractCalled : Bool
  pipelineStarted : Bool
deriving DecidableEq, Repr

/-- `Server.HandleUpload`, with the extractor's success abstracted as
`extractOk`. -/
def handleUpload (method : String) (current : State) (extractOk : Bool) :
    UploadOutcome :=
  if method ≠ "POST" then
    { httpStatus := 405, transitions := [], extractCalled := false,
      pipelineStarted := false }
  else if current ≠ State.idle then
    { httpStatus := 409, transitions := [], extractCalled := false,
      pipelineStarted := false }
  else if extractOk then
    { httpStatus := 202, transitions := [State.transferring],
      extractCalled := true, pipelineStarted := true }
  else
    { httpStatus := 500, transitions := [State.transferring, State.idle],
      extractCalled := true, pipelineStarted := false }

/-! ## Archive classifier & extractor: `TarExtractor` (tar.go)

Entry names are `List Char` so that the Go `strings` operations
(`HasSuffix`, `HasPrefix`, `Contains`) are character-exact.  Destination
paths are segment lists; `/tmp/parcel/images` and `/tmp/parcel/charts`
are `config.DefaultImagesDir` / `config.DefaultChartsDir`. -/

/-- A path name, character by character. -/
abbrev PathName := List Char

/-- A path broken into its `/`-separated nonempty segments
(the view of a cleaned relative path used by `filepath.Join`). -/
def splitPath (n : PathName) : List PathName :=
  (n.splitOn '/').filter (fun s => s ≠ [])

/-- `filepath.Base`: last segment of the path after stripping trailing
slashes, `.` if there is none. -/
def goBase (n : PathName) : PathName :=
  ((splitPath n).getLast?).getD ['.']

/-- Last segment of a segment-list path (`filepath.Base` of a joined
path), `.` if empty. -/
def segBase (p : List PathName) : PathName :=
  (p.getLast?).getD ['.']

/-- `config.DefaultImagesDir = "/tmp/parcel/images"` as segments. -/
def imagesRoot : List PathName :=
  ["tmp".toList, "parcel".toList, "images".toList]

/-- `config.DefaultChartsDir = "/tmp/parcel/charts"` as segments. -/
def chartsRoot : List PathName :=
  ["tmp".toList, "parcel".toList, "charts".toList]

/-- `TarExtractor.isImageTar`: suffix `.tar`, `.tar.gz` or `.tgz`,
and no `/` anywhere in the name. -/
def isImageTar (n : PathName) : Bool :=
  (".tar".toList.isSuffixOf n || ".tar.gz".toList.isSuffixOf n
      || ".tgz".toList.isSuffixOf n)
    && !(n.contains '/')

/-- `strings.Contains(n, pat)`: `pat` occurs as a contiguous character
subsequence of `n`. -/
def containsSeq (n pat : PathName) : Bool :=
  (List.range (n.length + 1)).any fun i => pat.isPrefixOf (n.drop i)

/-- `TarExtractor.isChartFile`: name starts with `charts/` or contains
`Chart.yaml` anywhere. -/
def isChartFile (n : PathName) : Bool :=
  "charts/".toList.isPrefixOf n || containsSeq n "Chart.yaml".toList

/-- `strings.TrimPrefix(name, "charts/")`. -/
def stripChartsSeg (n : PathName) : PathName :=
  if "charts/".toList.isPrefixOf n then n.drop 7 else n

/-- Destination of a chart entry:
`filepath.Join(chartsDir, strings.TrimPrefix(name, "charts/"))`. -/
def chartTarget (n : PathName) : List PathName :=
  chartsRoot ++ splitPath (stripChartsSeg n)

/-- A tar header is either a regular file or a directory
(`tar.TypeDir`); other type flags do not occur in parcel streams. -/
inductive EntryType
  | file
  | dir
deriving DecidableEq, Repr

/-- One tar header as seen by the extractor loop. -/
structure TarEntry where
  name : PathName
  typ : EntryType
deriving DecidableEq, Repr

/-- One step of the tar stream: either the next entry together with
whether its per-entry extraction (mkdir/create/copy) succeeds, or a
tar read error from `tr.Next()`. -/
inductive StreamItem
  | next (e : TarEntry) (writeOk : Bool)
  | readError
deriving DecidableEq, Repr

/-- A file-system effect of the extractor. -/
inductive FsAction
  | writeFile (path : List PathName)
  | makeDir (path : List PathName)
deriving DecidableEq, Repr

/-- A discovery callback invocation (`onImage` / `onChart`). -/
inductive CallbackEvent
  | onImage (name : PathName)
  | onChart (name : PathName)
deriving DecidableEq, Repr

/-- File-system effects of one loop iteration of `Extract`
(`extractImage` / `extractChart`): nothing on per-entry failure
(the entry is logged and skipped), nothing for ignored entries. -/
def entryActions (e : TarEntry) (writeOk : Bool) : List FsAction :=
  if isImageTar e.name then
    if writeOk then [FsAction.writeFile (imagesRoot ++ [goBase e.name])]
    else []
  else if isChartFile e.name then
    if writeOk then
      match e.typ with
      | EntryType.dir => [FsAction.makeDir (chartTarget e.name)]
      | EntryType.file =>
          [FsAction.makeDir (chartTarget e.name).dropLast,
           FsAction.writeFile (chartTarget e.name)]
    else []
  else []

/-- Callback invocations of one loop iteration of `Extract`: `onImage`
after a successful image extraction; `onChart` after writing a regular
file whose basename is `Chart.yaml`, passing
`filepath.Base(filepath.Dir(targetPath))`. -/
def entryCallbacks (e : TarEntry) (writeOk : Bool) : List CallbackEvent :=
  if isImageTar e.name then
    if writeOk then [CallbackEvent.onImage e.name] else []
  else if isChartFile e.name then
    if writeOk then
      match e.typ with
      | EntryType.dir => []
      | EntryType.file =>
          if goBase e.name = "Chart.yaml".toList then
            [CallbackEvent.onChart (segBase (chartTarget e.name).dropLast)]
          else []
    else []
  else []

/-- The `for` loop of `Extract`: stops with an error on a tar read
failure, otherwise accumulates each entry's effects. -/
def extractLoop :
    List StreamItem → List FsAction × List CallbackEvent × Option String
  | [] => ([], [], none)
  | StreamItem.readError :: _ => ([], [], some "tar read error")
  | StreamItem.next e w :: rest =>
      (entryActions e w ++ (extractLoop rest).1,
       entryCallbacks e w ++ (extractLoop rest).2.1,
       (extractLoop rest).2.2)

/-- Result of `Extract`: effects performed and the returned error. -/
structure ExtractResult where
  actions : List FsAction
  callbacks : List CallbackEvent
  err : Option String
deriving DecidableEq, Repr

/-- `TarExtractor.Extract`: create the two destination roots (failure of
either aborts the call), then run the stream loop. -/
def Extract (mkImagesDirOk mkChartsDirOk : Bool) (stream : List StreamItem) :
    ExtractResult :=
  if !mkImagesDirOk then
    { actions := [], callbacks := [], err := some "failed to create images dir" }
  else if !mkChartsDirOk then
    { actions := [], callbacks := [], err := some "failed to create charts dir" }
  else
    { actions := (extractLoop stream).1, callbacks := (extractLoop stream).2.1,
      err := (extractLoop stream).2.2 }

/-- The chart-discovery names fired by a run, in order. -/
def onChartNames (r : ExtractResult) : List PathName :=
  r.callbacks.filterMap fun c =>
    match c with
    | CallbackEvent.onChart n => some n
    | CallbackEvent.onImage _ => none

/-- The target directory of an entry that triggers the `onChart`
callback (a successfully written regular chart file whose basename is
`Chart.yaml`), if it does. -/
def chartEntryDir (e : TarEntry) (w : Bool) : Option (List PathName) :=
  if w && !isImageTar e.name && isChartFile e.name
      && (match e.typ with | EntryType.file => true | EntryType.dir => false)
      && (goBase e.name = "Chart.yaml".toList : Bool) then
    some (chartTarget e.name).dropLast
  else none

/-- The chart directories discovered by a stream, one per triggering
`Chart.yaml` entry, in stream order. -/
def chartDirsOf (stream : List StreamItem) : List (List PathName) :=
  stream.filterMap fun it =>
    match it with
    | StreamItem.next e w => chartEntryDir e w
    | StreamItem.readError => none

/-! ## Deployment & test orchestrator: `HelmManager` (helm.go)

A discovered chart is identified by its name (the basename of its
directory under the charts root; `discoverCharts` lists distinct
immediate subdirectories, so names of one run are distinct).  The exit
status of `helm install` and `helm test` for each chart are parameters.
The run is embedded as an event trace: subprocess invocations and
`updateStatus` calls, in program order. -/

/-- One discovered chart together with the outcome of its external
`helm install` and `helm test` invocations. -/
structure ChartSpec where
  name : String
  installOk : Bool
  testOk : Bool
deriving DecidableEq, Repr

/-- An observable event of the helm pipeline. -/
inductive HelmEvent
  | helmInstall (chart : String)
  | helmTest (chart : String)
  | status (chart : String) (phase : Phase)
deriving DecidableEq, Repr

/-- `HelmManager.installChart` (helm.go:135-161): record `Installing`,
run `helm install --wait`, then record `Deployed` on success or
`Failed` on failure. -/
def installChart (c : ChartSpec) : List HelmEvent :=
  [HelmEvent.status c.name Phase.installing, HelmEvent.helmInstall c.name] ++
    (if c.installOk then [HelmEvent.status c.name Phase.deployed]
     else [HelmEvent.status c.name Phase.failed])

/-- `HelmManager.runTests` (helm.go:164-194): record `Testing`, run
`helm test --logs`, then record `Succeeded` on success or `Failed` on
failure. -/
def runTests (c : ChartSpec) : List HelmEvent :=
  [HelmEvent.status c.name Phase.testing, HelmEvent.helmTest c.name] ++
    (if c.testOk then [HelmEvent.status c.name Phase.succeeded]
     else [HelmEvent.status c.name Phase.failed])

/-- Whether the chart is counted in `testFailures` by the loop of
`InstallCharts`: install failed (tests are then skipped via `continue`),
or install succeeded and tests failed. -/
def chartFailed (c : ChartSpec) : Bool :=
  !c.installOk || (c.installOk && !c.testOk)

/-- One iteration of the `for _, chart := range charts` loop: install,
and run tests only when the install succeeded. -/
def processChart (c : ChartSpec) : List HelmEvent :=
  installChart c ++ (if c.installOk then runTests c else [])

/-- The chart loop of `InstallCharts` (helm.go:62-73): the event trace
and the `testFailures` list, in order. -/
def installLoop : List ChartSpec → List HelmEvent × List String
  | [] => ([], [])
  | c :: rest =>
      (processChart c ++ (installLoop rest).1,
       (if chartFailed c then [c.name] else []) ++ (installLoop rest).2)

/-- The aggregate error of `InstallCharts`. -/
inductive HelmError
  | ensureBinaryFailed
  | discoverFailed
  | chartsFailed (failed : List String)
deriving DecidableEq, Repr

/-- `HelmManager.InstallCharts` (helm.go:39-80): ensure the helm binary
(fatal on failure), discover charts (fatal on failure), then the chart
loop; returns the event trace and an error exactly when `testFailures`
is nonempty, naming the failed charts.  (The
`waitForDefaultServiceAccount` timeout is a warning only and emits no
event relevant to the claims.) -/
def InstallChartsFull (ensureHelmOk discoverOk : Bool)
    (charts : List ChartSpec) : List HelmEvent × Option HelmError :=
  if !ensureHelmOk then ([], some HelmError.ensureBinaryFailed)
  else if !discoverOk then ([], some HelmError.discoverFailed)
  else
    ((installLoop charts).1,
     if (installLoop charts).2.isEmpty then none
     else some (HelmError.chartsFailed (installLoop charts).2))

/-- The returned error of `InstallCharts`. -/
def InstallCharts (ensureHelmOk discoverOk : Bool)
    (charts : List ChartSpec) : Option HelmError :=
  (InstallChartsFull ensureHelmOk discoverOk charts).2

/-- The `updateStatus` calls of a trace, in order. -/
def statusUpdates (evs : List HelmEvent) : List (String × Phase) :=
  evs.filterMap fun e =>
    match e with
    | HelmEvent.status c p => some (c, p)
    | HelmEvent.helmInstall _ => none
    | HelmEvent.helmTest _ => none

/-- The phases recorded for one chart name, in order. -/
def phasesOf (evs : List HelmEvent) (n : String) : List Phase :=
  (statusUpdates evs).filterMap fun u =>
    if u.1 = n then some u.2 else none

/-- The `chartStatus` map after a list of `updateStatus` calls
(later calls overwrite earlier ones); `GetChartsStatus` returns a copy
of exactly this map. -/
def snapshot : List (String × Phase) → String → Option Phase
  | [], _ => none
  | u :: rest, n =>
      match snapshot rest n with
      | some p => some p
      | none => if u.1 = n then some u.2 else none

/-- The full sequence of phases `installChart`/`runTests` record for a
chart, as a function of its two subprocess outcomes. -/
def chartPhaseList (c : ChartSpec) : List Phase :=
  [Phase.installing] ++
    (if c.installOk then
       [Phase.deployed, Phase.testing] ++
         (if c.testOk then [Phase.succeeded] else [Phase.failed])
     else [Phase.failed])

/-- The final phase a chart ends the run with. -/
def finalPhase (c : ChartSpec) : Phase :=
  if c.installOk then (if c.testOk then Phase.succeeded else Phase.failed)
  else Phase.failed

/-! ## Cluster process manager: `K3sManager.Start` (k3s.go)

The two readiness waits are polling loops with explicit bounds:
`waitForKubeconfig` polls the credentials file every 500ms with a 60s
timeout (120 polls); `waitForReady` polls the two health endpoints
every 2s with a 300s timeout (150 polls), accepting HTTP 200 or 401.
The environment supplies, per poll tick, whether the file exists and
the list of endpoint responses (`none` = transport error). -/

/-- A bounded polling loop: `check` per tick, `true` on first success,
`false` when the fuel (the timeout) runs out. -/
def pollAux (check : Nat → Bool) : Nat → Nat → Bool
  | _, 0 => false
  | t, fuel + 1 => if check t then true else pollAux check (t + 1) fuel

/-- `K3sManager.waitForKubeconfig` (k3s.go:108-126). -/
def waitForKubeconfig (fileExists : Nat → Bool) : Except String Unit :=
  if pollAux fileExists 0 120 then Except.ok ()
  else Except.error "timeout waiting for kubeconfig"

/-- One tick of `waitForReady`: some endpoint answered 200 or 401
(k3s.go:153-167). -/
def readyResponse (rs : List (Option Nat)) : Bool :=
  rs.any fun r =>
    match r with
    | some s => s = 200 || s = 401
    | none => false

/-- `K3sManager.waitForReady` (k3s.go:128-170). -/
def waitForReady (responses : Nat → List (Option Nat)) : Except String Unit :=
  if pollAux (fun t => readyResponse (responses t)) 0 150 then Except.ok ()
  else Except.error "timeout waiting for k3s API"

/-- The external outcomes `K3sManager.Start` depends on.  Cgroup and
airgap setup failures are warnings and do not affect the result. -/
structure BootEnv where
  processStartOk : Bool
  fileExists : Nat → Bool
  responses : Nat → List (Option Nat)

/-- `K3sManager.Start` (k3s.go:36-106): spawn the k3s process (fatal on
failure), wait for the kubeconfig, then for API readiness. -/
def k3sStart (env : BootEnv) : Except String Unit :=
  if !env.processStartOk then Except.error "failed to start k3s"
  else
    match waitForKubeconfig env.fileExists with
    | Except.error e => Except.error e
    | Except.ok _ => waitForReady env.responses

/-! ## Background pipeline: `Server.startK3s` (handler.go:116-169) -/

/-- A broadcast log event: source, level, message. -/
structure LogEvt where
  source : String
  level : String
  message : String
deriving DecidableEq, Repr

/-- Outcome of one background pipeline run: the lifecycle `Transition`
calls performed (in order), the helm event trace, and the broadcast log
events. -/
structure PipelineRun where
  states : List State
  helmEvents : List HelmEvent
  logs : List LogEvt
deriving DecidableEq, Repr

/-- `Server.startK3s`: transition to `Starting`; on K3s boot failure
broadcast the failure completion marker and revert to `Idle`; otherwise
transition to `Ready`, import images (failure is a warning), run
`InstallCharts`, and broadcast exactly one completion marker.  In the
source, `allPassed := err == nil` and the subsequent loop over
`GetChartsStatus` can only reset an already-false value, so the success
marker is emitted exactly when `InstallCharts` returned nil. -/
def startK3s (boot : BootEnv) (importImagesOk : Bool)
    (ensureHelmOk discoverOk : Bool) (charts : List ChartSpec) :
    PipelineRun :=
  match k3sStart boot with
  | Except.error e =>
      { states := [State.starting, State.idle]
        helmEvents := []
        logs := [{ source := "k3s", level := "error",
                   message := "Startup failed: " ++ e },
                 { source := "runner", level := "complete",
                   message := "COMPLETE:FAILED:K3s startup failed" }] }
  | Except.ok _ =>
      { states := [State.starting, State.ready]
        helmEvents := (InstallChartsFull ensureHelmOk discoverOk charts).1
        logs :=
          [{ source := "k3s", level := "info", message := "K3s is ready" },
           { source := "runner", level := "info",
             message := "Importing bundled images..." }] ++
          (if importImagesOk then []
           else [{ source := "runner", level := "warning",
                   message := "Image import warning" }]) ++
          (if (InstallChartsFull ensureHelmOk discoverOk charts).2.isSome then
             [{ source := "helm", level := "warning",
                message := "Installation warnings" }]
           else []) ++
          (if (InstallChartsFull ensureHelmOk discoverOk charts).2.isNone then
             [{ source := "runner", level := "complete",
                message := "COMPLETE:SUCCESS:All tests passed" }]
           else
             [{ source := "runner", level := "complete",
                message := "COMPLETE:FAILED:Tests failed" }]) }

/-- The terminal completion markers of a run: messages of the log events
whose level is `complete`. -/
def completionMarkers (r : PipelineRun) : List String :=
  (r.logs.filter fun e => e.level = "complete").map fun e => e.message

/-- The chart-status snapshot visible through `GetChartsStatus` at the
end of a run. -/
def runSnap (r : PipelineRun) (n : String) : Option Phase :=
  snapshot (statusUpdates r.helmEvents) n

/-! ## Log bus and websocket observer path (handler.go)

`LogBuffer` keeps the most recent `maxSize` messages (`Add` appends and
drops the oldest on overflow).  The websocket observer path registers
the connection, writes the `GetAll` backlog to the wire, and thereafter
`broadcastLog` writes every newly added event to every registered
connection, in order.  A join is one atomic step relative to adds, as in
the claim's premise «joins after K events and before event K+1». -/

/-- Bus state: capacity, bounded buffer, and per-connection received
message lists (wire order). -/
structure BusState where
  cap : Nat
  buffer : List String
  clients : List (Nat × List String)
deriving DecidableEq, Repr

/-- `broadcastLog` / `LogBuffer.Add`: append to the buffer, drop the
oldest on overflow, then deliver to every registered connection. -/
def busAdd (s : BusState) (m : String) : BusState :=
  { s with
    buffer :=
      if s.cap < (s.buffer ++ [m]).length then (s.buffer ++ [m]).drop 1
      else s.buffer ++ [m]
    clients := s.clients.map fun cl => (cl.1, cl.2 ++ [m]) }

/-- `HandleWebSocket` join: register the connection and write the
`GetAll` backlog to it. -/
def busJoin (s : BusState) (c : Nat) : BusState :=
  { s with clients := s.clients ++ [(c, s.buffer)] }

/-- An operation on the bus. -/
inductive BusOp
  | add (m : String)
  | join (c : Nat)
deriving DecidableEq, Repr

/-- Run a sequence of bus operations. -/
def busRun (s : BusState) : List BusOp → BusState
  | [] => s
  | BusOp.add m :: rest => busRun (busAdd s m) rest
  | BusOp.join c :: rest => busRun (busJoin s c) rest

/-- `NewLogBuffer(cap)` with no connected observer. -/
def initBus (cap : Nat) : BusState :=
  { cap := cap, buffer := [], clients := [] }

/-- Everything connection `c` received, in order. -/
def received (s : BusState) (c : Nat) : Option (List String) :=
  (s.clients.find? fun cl => cl.1 == c).map fun cl => cl.2

/-- The most recent `n` elements of a list. -/
def lastN (n : Nat) (l : List α) : List α :=
  l.drop (l.length - n)

/-- File-system effects of one stream item (a read error performs
none). -/
def itemActions : StreamItem → List FsAction
  | StreamItem.next e w => entryActions e w
  | StreamItem.readError => []

/-- Callback invocations of one stream item. -/
def itemCallbacks : StreamItem → List CallbackEvent
  | StreamItem.next e w => entryCallbacks e w
  | StreamItem.readError => []

/-- A boot environment in which every stage succeeds immediately: the
process starts, the kubeconfig file exists at the first poll, and the
kubelet health endpoint answers 200 at the first poll. -/
def bootOkEnv : BootEnv :=
  { processStartOk := true, fileExists := fun _ => true,
    responses := fun _ => [some 200] }

/-! ## Helper lemmas: helm pipeline traces -/

theorem installLoop_events (charts : List ChartSpec) :
    (installLoop charts).1 = charts.flatMap processChart := by
  induction charts with
  | nil => rfl
  | cons c rest ih => simp [installLoop, ih]

theorem installLoop_failures (charts : List ChartSpec) :
    (installLoop charts).2 = (charts.filter chartFailed).map ChartSpec.name := by
  induction charts with
  | nil => rfl
  | cons c rest ih =>
      by_cases h : chartFailed c = true
      · simp [installLoop, ih, h]
      · simp [installLoop, ih, h]

theorem statusUpdates_append (a b : List HelmEvent) :
    statusUpdates (a ++ b) = statusUpdates a ++ statusUpdates b :=
  List.filterMap_append a b _

theorem phasesOf_append (a b : List HelmEvent) (n : String) :
    phasesOf (a ++ b) n = phasesOf a n ++ phasesOf b n := by
  unfold phasesOf
  rw [statusUpdates_append, List.filterMap_append]

theorem phasesOf_processChart (c : ChartSpec) (n : String) :
    phasesOf (processChart c) n =
      if c.name = n then chartPhaseList c else [] := by
  rcases c with ⟨cn, iok, tok⟩
  by_cases h : cn = n <;>
    cases iok <;> cases tok <;>
      simp [processChart, installChart, runTests, phasesOf, statusUpdates,
        chartPhaseList, h]

theorem phasesOf_flatMap_none (charts : List ChartSpec) (n : String)
    (h : ∀ c ∈ charts, c.name ≠ n) :
    phasesOf (charts.flatMap processChart) n = [] := by
  induction charts with
  | nil => rfl
  | cons c rest ih =>
      rw [List.flatMap_cons, phasesOf_append, phasesOf_processChart,
        if_neg (h c (List.mem_cons_self c rest)),
        ih fun d hd => h d (List.mem_cons_of_mem c hd)]
      rfl

theorem phasesOf_run (charts : List ChartSpec)
    (h : (charts.map ChartSpec.name).Nodup) (c : ChartSpec) (hc : c ∈ charts) :
    phasesOf (installLoop charts).1 c.name = chartPhaseList c := by
  rw [installLoop_events]
  induction charts with
  | nil => cases hc
  | cons d rest ih =>
      obtain ⟨h1, h2⟩ : (∀ x ∈ rest, ¬x.name = d.name) ∧
          (rest.map ChartSpec.name).Nodup := by simpa using h
      rw [List.flatMap_cons, phasesOf_append]
      rcases List.mem_cons.mp hc with hcd | hcr
      · subst hcd
        rw [phasesOf_processChart, if_pos rfl,
          phasesOf_flatMap_none rest c.name, List.append_nil]
        exact fun e he hn => h1 e he hn
      · have hdn : d.name ≠ c.name := fun hn => h1 c hcr hn.symm
        rw [phasesOf_processChart, if_neg hdn, ih h2 hcr, List.nil_append]

theorem chartPhaseList_chain (c : ChartSpec) :
    List.Chain' (fun p q => p.rank < q.rank) (chartPhaseList c) := by
  rcases c with ⟨cn, iok, tok⟩
  cases iok <;> cases tok <;> simp [chartPhaseList] <;> decide

theorem chartPhaseList_head (c : ChartSpec) :
    (chartPhaseList c).head? = some Phase.installing := by
  rcases c with ⟨cn, iok, tok⟩
  cases iok <;> cases tok <;> rfl

theorem chartPhaseList_getLast (c : ChartSpec) :
    (chartPhaseList c).getLast? = some (finalPhase c) := by
  rcases c with ⟨cn, iok, tok⟩
  cases iok <;> cases tok <;> rfl

theorem statusUpdates_processChart_no_pending (c : ChartSpec) :
    ∀ u ∈ statusUpdates (processChart c), u.2 ≠ Phase.pending := by
  rcases c with ⟨cn, iok, tok⟩
  cases iok <;> cases tok <;>
    simp [processChart, installChart, runTests, statusUpdates]

theorem statusUpdates_run_no_pending (charts : List ChartSpec) :
    ∀ u ∈ statusUpdates (installLoop charts).1, u.2 ≠ Phase.pending := by
  rw [installLoop_events]
  induction charts with
  | nil => intro u hu; cases hu
  | cons c rest ih =>
      rw [List.flatMap_cons, statusUpdates_append]
      intro u hu
      rcases List.mem_append.mp hu with h | h
      · exact statusUpdates_processChart_no_pending c u h
      · exact ih u h

theorem snapshot_no_pending (ups : List (String × Phase))
    (h : ∀ u ∈ ups, u.2 ≠ Phase.pending) (n : String) :
    snapshot ups n ≠ some Phase.pending := by
  induction ups with
  | nil => simp [snapshot]
  | cons u rest ih =>
      have hrest := ih fun v hv => h v (List.mem_cons_of_mem u hv)
      have hu := h u (List.mem_cons_self u rest)
      cases hs : snapshot rest n with
      | some p =>
          have hp : p ≠ Phase.pending := fun hpp => hrest (by rw [hs, hpp])
          simp only [snapshot, hs]
          exact fun hc => hp (by injection hc)
      | none =>
          simp only [snapshot, hs]
          by_cases hn : u.1 = n
          · simp only [if_pos hn]
            exact fun hc => hu (by injection hc)
          · simp [hn]

theorem snapshot_append (a b : List (String × Phase)) (n : String) :
    snapshot (a ++ b) n =
      match snapshot b n with
      | some p => some p
      | none => snapshot a n := by
  induction a with
  | nil =>
      cases hb : snapshot b n <;> simp [snapshot, hb]
  | cons u a ih =>
      cases hb : snapshot b n <;> simp [snapshot, ih, hb]

theorem snapshot_processChart (c : ChartSpec) (n : String) :
    snapshot (statusUpdates (processChart c)) n =
      if c.name = n then some (finalPhase c) else none := by
  rcases c with ⟨cn, iok, tok⟩
  by_cases h : cn = n <;>
    cases iok <;> cases tok <;>
      simp [processChart, installChart, runTests, statusUpdates, snapshot,
        finalPhase, h]

theorem snapshot_flatMap_none (charts : List ChartSpec) (n : String)
    (h : ∀ c ∈ charts, c.name ≠ n) :
    snapshot (statusUpdates (charts.flatMap processChart)) n = none := by
  induction charts with
  | nil => rfl
  | cons c rest ih =>
      rw [List.flatMap_cons, statusUpdates_append, snapshot_append,
        ih fun d hd => h d (List.mem_cons_of_mem c hd)]
      rw [snapshot_processChart, if_neg (h c (List.mem_cons_self c rest))]

theorem snapshot_run (charts : List ChartSpec)
    (h : (charts.map ChartSpec.name).Nodup) (c : ChartSpec) (hc : c ∈ charts) :
    snapshot (statusUpdates (installLoop charts).1) c.name =
      some (finalPhase c) := by
  rw [installLoop_events]
  induction charts with
  | nil => cases hc
  | cons d rest ih =>
      obtain ⟨h1, h2⟩ : (∀ x ∈ rest, ¬x.name = d.name) ∧
          (rest.map ChartSpec.name).Nodup := by simpa using h
      rw [List.flatMap_cons, statusUpdates_append, snapshot_append]
      rcases List.mem_cons.mp hc with hcd | hcr
      · subst hcd
        rw [snapshot_flatMap_none rest c.name
          (fun e he hn => h1 e he hn)]
        rw [snapshot_processChart, if_pos rfl]
      · rw [ih h2 hcr]

theorem helmTest_mem_processChart (c : ChartSpec) (n : String) :
    HelmEvent.helmTest n ∈ processChart c ↔
      (c.name = n ∧ c.installOk = true) := by
  rcases c with ⟨cn, iok, tok⟩
  cases iok <;> cases tok <;>
    simp [processChart, installChart, runTests] <;> tauto

theorem helmInstall_mem_processChart (c : ChartSpec) :
    HelmEvent.helmInstall c.name ∈ processChart c := by
  rcases c with ⟨cn, iok, tok⟩
  cases iok <;> cases tok <;> simp [processChart, installChart, runTests]

/-! ## Claim theorems -/

/-- C1.  For every upload request (a `POST` to the upload endpoint)
received while the lifecycle state is not `Idle`, `HandleUpload` answers
409 Conflict, performs no lifecycle transition (the state is unchanged),
and never invokes the extractor's `Extract`. -/
theorem upload_rejected_when_not_idle (st : State) (extractOk : Bool)
    (h : st ≠ State.idle) :
    handleUpload "POST" st extractOk =
      { httpStatus := 409, transitions := [], extractCalled := false,
        pipelineStarted := false } := by
  simp [handleUpload, h]

theorem upload_rejected_when_not_idle_witness :
    State.ready ≠ State.idle ∧
      handleUpload "POST" State.ready true =
        { httpStatus := 409, transitions := [], extractCalled := false,
          pipelineStarted := false } :=
  ⟨by decide, upload_rejected_when_not_idle State.ready true (by decide)⟩

/-- C2.  When the helm binary is available and chart discovery succeeds:
every discovered chart's `helm install` is invoked regardless of earlier
charts' failures; a chart's `helm test` is invoked exactly when its own
install succeeded; `InstallCharts` returns an error iff at least one
chart failed; and the error names every failed chart (the `testFailures`
list is exactly the failed charts, in order). -/
theorem installCharts_continue_on_error (charts : List ChartSpec)
    (h : (charts.map ChartSpec.name).Nodup) :
    (∀ c ∈ charts, HelmEvent.helmInstall c.name ∈ (installLoop charts).1) ∧
    (∀ c ∈ charts,
      (HelmEvent.helmTest c.name ∈ (installLoop charts).1 ↔
        c.installOk = true)) ∧
    (InstallCharts true true charts = none ↔
      ∀ c ∈ charts, chartFailed c = false) ∧
    (∀ c ∈ charts, chartFailed c = true →
      InstallCharts true true charts =
        some (HelmError.chartsFailed
          ((charts.filter chartFailed).map ChartSpec.name)) ∧
        c.name ∈ (charts.filter chartFailed).map ChartSpec.name) := by
  refine ⟨?_, ?_, ?_, ?_⟩
  · intro c hc
    rw [installLoop_events]
    exact List.mem_flatMap.mpr ⟨c, hc, helmInstall_mem_processChart c⟩
  · intro c hc
    rw [installLoop_events]
    constructor
    · intro hm
      rcases List.mem_flatMap.mp hm with ⟨d, hd, hmem⟩
      rcases (helmTest_mem_processChart d c.name).mp hmem with ⟨hn, hok⟩
      have : d = c := List.inj_on_of_nodup_map h hd hc hn
      exact this ▸ hok
    · intro hok
      exact List.mem_flatMap.mpr
        ⟨c, hc, (helmTest_mem_processChart c c.name).mpr ⟨rfl, hok⟩⟩
  · rw [InstallCharts, InstallChartsFull, if_neg (by decide),
      if_neg (by decide), installLoop_failures]
    constructor
    · intro he c hc
      by_contra hf
      have hcf : c ∈ charts.filter chartFailed :=
        List.mem_filter.mpr ⟨hc, by simpa using hf⟩
      have hne : ((charts.filter chartFailed).map ChartSpec.name).isEmpty ≠ true := by
        intro hemp
        rw [List.isEmpty_iff, List.map_eq_nil_iff] at hemp
        rw [hemp] at hcf
        cases hcf
      rw [if_neg hne] at he
      cases he
    · intro hall
      have hnil : charts.filter chartFailed = [] :=
        List.filter_eq_nil_iff.mpr fun c hc => by simp [hall c hc]
      simp [hnil]
  · intro c hc hf
    have hcf : c ∈ charts.filter chartFailed :=
      List.mem_filter.mpr ⟨hc, hf⟩
    constructor
    · rw [InstallCharts, InstallChartsFull, if_neg (by decide),
        if_neg (by decide), installLoop_failures]
      have hne : ((charts.filter chartFailed).map ChartSpec.name).isEmpty ≠ true := by
        intro hemp
        rw [List.isEmpty_iff, List.map_eq_nil_iff] at hemp
        rw [hemp] at hcf
        cases hcf
      rw [if_neg hne]
    · exact List.mem_map_of_mem ChartSpec.name hcf

theorem installCharts_continue_on_error_witness :
    ((([⟨"alpha", false, true⟩, ⟨"beta", true, true⟩] :
        List ChartSpec).map ChartSpec.name).Nodup) ∧
    ((∀ c ∈ ([⟨"alpha", false, true⟩, ⟨"beta", true, true⟩] : List ChartSpec),
        HelmEvent.helmInstall c.name ∈
          (installLoop [⟨"alpha", false, true⟩, ⟨"beta", true, true⟩]).1) ∧
     (∀ c ∈ ([⟨"alpha", false, true⟩, ⟨"beta", true, true⟩] : List ChartSpec),
        (HelmEvent.helmTest c.name ∈
          (installLoop [⟨"alpha", false, true⟩, ⟨"beta", true, true⟩]).1 ↔
          c.installOk = true)) ∧
     (InstallCharts true true [⟨"alpha", false, true⟩, ⟨"beta", true, true⟩]
        = none ↔
      ∀ c ∈ ([⟨"alpha", false, true⟩, ⟨"beta", true, true⟩] : List ChartSpec),
        chartFailed c = false) ∧
     (∀ c ∈ ([⟨"alpha", false, true⟩, ⟨"beta", true, true⟩] : List ChartSpec),
        chartFailed c = true →
        InstallCharts true true [⟨"alpha", false, true⟩, ⟨"beta", true, true⟩]
          = some (HelmError.chartsFailed
            ((([⟨"alpha", false, true⟩, ⟨"beta", true, true⟩] :
                List ChartSpec).filter chartFailed).map ChartSpec.name)) ∧
        c.name ∈ (([⟨"alpha", false, true⟩, ⟨"beta", true, true⟩] :
            List ChartSpec).filter chartFailed).map ChartSpec.name)) :=
  ⟨by decide,
   installCharts_continue_on_error
     [⟨"alpha", false, true⟩, ⟨"beta", true, true⟩] (by decide)⟩

/-- C3.  Within one run (one `InstallCharts` call over distinct
discovered charts), the sequence of phases recorded by the
`updateStatus` calls of `installChart`/`runTests` for any single chart
is strictly increasing in the forward phase order — a chart's phase
never moves backward. -/
theorem chart_phases_move_forward (charts : List ChartSpec)
    (h : (charts.map ChartSpec.name).Nodup) :
    ∀ c ∈ charts,
      List.Chain' (fun p q => p.rank < q.rank)
        (phasesOf (installLoop charts).1 c.name) := by
  intro c hc
  rw [phasesOf_run charts h c hc]
  exact chartPhaseList_chain c

theorem chart_phases_move_forward_witness :
    ((([⟨"alpha", false, true⟩, ⟨"beta", true, false⟩] :
        List ChartSpec).map ChartSpec.name).Nodup) ∧
    (∀ c ∈ ([⟨"alpha", false, true⟩, ⟨"beta", true, false⟩] : List ChartSpec),
      List.Chain' (fun p q => p.rank < q.rank)
        (phasesOf (installLoop
          [⟨"alpha", false, true⟩, ⟨"beta", true, false⟩]).1 c.name)) :=
  ⟨by decide,
   chart_phases_move_forward
     [⟨"alpha", false, true⟩, ⟨"beta", true, false⟩] (by decide)⟩

/-- C10 (implicit).  In every run the first phase recorded for any chart
is `Installing`; the `Pending` phase of the data model is never assigned
by `updateStatus`, so no `GetChartsStatus` snapshot — taken after any
prefix of the run's status updates — maps a chart to `Pending`. -/
theorem pending_never_assigned (charts : List ChartSpec)
    (h : (charts.map ChartSpec.name).Nodup) :
    (∀ c ∈ charts,
      (phasesOf (installLoop charts).1 c.name).head? =
        some Phase.installing) ∧
    (∀ k n,
      snapshot ((statusUpdates (installLoop charts).1).take k) n ≠
        some Phase.pending) := by
  constructor
  · intro c hc
    rw [phasesOf_run charts h c hc]
    exact chartPhaseList_head c
  · intro k n
    refine snapshot_no_pending _ (fun u hu => ?_) n
    exact statusUpdates_run_no_pending charts u
      (List.take_subset k (statusUpdates (installLoop charts).1) hu)

theorem pending_never_assigned_witness :
    ((([⟨"alpha", true, true⟩, ⟨"beta", false, false⟩] :
        List ChartSpec).map ChartSpec.name).Nodup) ∧
    ((∀ c ∈ ([⟨"alpha", true, true⟩, ⟨"beta", false, false⟩] : List ChartSpec),
        (phasesOf (installLoop
          [⟨"alpha", true, true⟩, ⟨"beta", false, false⟩]).1 c.name).head? =
          some Phase.installing) ∧
     (∀ k n,
        snapshot ((statusUpdates (installLoop
          [⟨"alpha", true, true⟩, ⟨"beta", false, false⟩]).1).take k) n ≠
          some Phase.pending)) :=
  ⟨by decide,
   pending_never_assigned
     [⟨"alpha", true, true⟩, ⟨"beta", false, false⟩] (by decide)⟩

/-! ## Helper lemmas: extractor -/

theorem entryActions_skip (e : TarEntry) : entryActions e false = [] := by
  rcases e with ⟨n, t⟩
  by_cases h1 : isImageTar n = true <;> by_cases h2 : isChartFile n = true <;>
    simp [entryActions, h1, h2]

theorem entryCallbacks_skip (e : TarEntry) : entryCallbacks e false = [] := by
  rcases e with ⟨n, t⟩
  by_cases h1 : isImageTar n = true <;> by_cases h2 : isChartFile n = true <;>
    simp [entryCallbacks, h1, h2]

theorem entryActions_ignored (e : TarEntry) (w : Bool)
    (h1 : isImageTar e.name = false) (h2 : isChartFile e.name = false) :
    entryActions e w = [] := by
  simp [entryActions, h1, h2]

theorem entryCallbacks_ignored (e : TarEntry) (w : Bool)
    (h1 : isImageTar e.name = false) (h2 : isChartFile e.name = false) :
    entryCallbacks e w = [] := by
  simp [entryCallbacks, h1, h2]

theorem extractLoop_clean (stream : List StreamItem)
    (h : StreamItem.readError ∉ stream) :
    extractLoop stream =
      (stream.flatMap itemActions, stream.flatMap itemCallbacks, none) := by
  induction stream with
  | nil => rfl
  | cons it rest ih =>
      cases it with
      | next e w =>
          have hr : StreamItem.readError ∉ rest :=
            fun hm => h (List.mem_cons_of_mem _ hm)
          simp [extractLoop, ih hr, itemActions, itemCallbacks]
      | readError => exact absurd (List.mem_cons_self _ _) h

theorem Extract_clean (stream : List StreamItem)
    (h : StreamItem.readError ∉ stream) :
    Extract true true stream =
      { actions := stream.flatMap itemActions,
        callbacks := stream.flatMap itemCallbacks, err := none } := by
  rw [Extract, if_neg (by decide), if_neg (by decide), extractLoop_clean stream h]

theorem isImageTar_of_chartsPre (n : PathName)
    (h : "charts/".toList.isPrefixOf n = true) : isImageTar n = false := by
  have hpre : "charts/".toList <+: n := List.isPrefixOf_iff_prefix.mp h
  have hmem : '/' ∈ n := hpre.subset (by decide)
  have hcon : n.contains '/' = true := by simpa using hmem
  simp only [isImageTar, hcon, Bool.not_true, Bool.and_false]

theorem extractLoop_err_iff (stream : List StreamItem) :
    ((extractLoop stream).2.2.isSome = true ↔ StreamItem.readError ∈ stream) := by
  induction stream with
  | nil => simp [extractLoop]
  | cons it rest ih =>
      cases it with
      | next e w => simpa [extractLoop] using ih
      | readError => simp [extractLoop]

theorem extractLoop_skip (xs ys : List StreamItem) (e : TarEntry) :
    extractLoop (xs ++ StreamItem.next e false :: ys) =
      extractLoop (xs ++ ys) := by
  induction xs with
  | nil =>
      simp [extractLoop, entryActions_skip, entryCallbacks_skip]
  | cons it xs ih =>
      cases it with
      | next d v => simp [extractLoop, ih]
      | readError => simp [extractLoop]

/-- The name fired for a triggering entry equals the basename of its
target directory. -/
theorem entry_callback_dirs (it : StreamItem) :
    (itemCallbacks it).filterMap
        (fun c => match c with
          | CallbackEvent.onChart n => some n
          | CallbackEvent.onImage _ => none) =
      (match it with
        | StreamItem.next e w => chartEntryDir e w
        | StreamItem.readError => none).toList.map segBase := by
  cases it with
  | readError => rfl
  | next e w =>
      rcases e with ⟨n, t⟩
      cases w <;> cases t <;>
        by_cases h1 : isImageTar n = true <;>
          by_cases h2 : isChartFile n = true <;>
            simp [itemCallbacks, entryCallbacks, chartEntryDir, h1, h2] <;>
              split <;> rename_i h3 <;> simp

theorem onChartNames_flatMap (stream : List StreamItem) :
    (stream.flatMap itemCallbacks).filterMap
        (fun c => match c with
          | CallbackEvent.onChart n => some n
          | CallbackEvent.onImage _ => none) =
      (chartDirsOf stream).map segBase := by
  induction stream with
  | nil => rfl
  | cons it rest ih =>
      rw [List.flatMap_cons, List.filterMap_append, ih]
      rw [entry_callback_dirs it]
      cases it with
      | readError => simp [chartDirsOf]
      | next e w =>
          cases hd : chartEntryDir e w <;>
            simp [chartDirsOf, hd, List.filterMap_cons]

theorem nodup_count_le_one {A : Type} [BEq A] [LawfulBEq A] (l : List A)
    (h : l.Nodup) (d : A) : l.count d ≤ 1 := by
  induction l with
  | nil => simp
  | cons a l ih =>
      obtain ⟨ha, hl⟩ := List.nodup_cons.mp h
      rw [List.count_cons]
      by_cases hd : (a == d) = true
      · have had : a = d := by simpa using hd
        subst had
        have hz : l.count a = 0 := List.count_eq_zero.mpr ha
        simp [hz, hd]
      · simp [hd, ih hl]

/-! ## Claim theorems (extractor) -/

/-- C4 (amended).  In a stream with no tar read error: extraction is the
concatenation of each entry's independent effects; a successfully
written `ImageArtifact` entry (flat name, archive suffix) lands at
`<imagesDir>/<basename>`; a successfully written regular entry under
`charts/X/...` lands at `<chartsDir>/X/...` preserving the nested
relative structure; and an entry that the extractor classifies neither
as an image nor as a chart file (`charts/` path or a path containing
`Chart.yaml`) produces no file-system action and no callback.  (As
frozen, the claim is false: an entry such as `demo/Chart.yaml` is
neither an `ImageArtifact` nor under `charts/`, yet it is written and
fires the chart callback — see the counterexample.) -/
theorem extract_entry_destinations (stream : List StreamItem)
    (h : StreamItem.readError ∉ stream) :
    ((Extract true true stream).actions = stream.flatMap itemActions ∧
      (Extract true true stream).callbacks = stream.flatMap itemCallbacks) ∧
    (∀ e w, StreamItem.next e w ∈ stream → w = true →
      isImageTar e.name = true →
      FsAction.writeFile (imagesRoot ++ [goBase e.name]) ∈
        (Extract true true stream).actions) ∧
    (∀ e w, StreamItem.next e w ∈ stream → w = true →
      "charts/".toList.isPrefixOf e.name = true → e.typ = EntryType.file →
      FsAction.writeFile (chartsRoot ++ splitPath (e.name.drop 7)) ∈
        (Extract true true stream).actions) ∧
    (∀ e w, isImageTar e.name = false → isChartFile e.name = false →
      entryActions e w = [] ∧ entryCallbacks e w = []) := by
  rw [Extract_clean stream h]
  refine ⟨⟨rfl, rfl⟩, ?_, ?_, ?_⟩
  · intro e w hm hw hi
    subst hw
    refine List.mem_flatMap.mpr ⟨StreamItem.next e true, hm, ?_⟩
    simp [itemActions, entryActions, hi]
  · intro e w hm hw hpre htyp
    subst hw
    refine List.mem_flatMap.mpr ⟨StreamItem.next e true, hm, ?_⟩
    have hi : isImageTar e.name = false := isImageTar_of_chartsPre e.name hpre
    have hc : isChartFile e.name = true := by
      unfold isChartFile
      rw [hpre]
      rfl
    have htgt : chartTarget e.name = chartsRoot ++ splitPath (e.name.drop 7) := by
      rw [chartTarget, stripChartsSeg, if_pos hpre]
    simp [itemActions, entryActions, hi, hc, htyp, htgt]
  · intro e w h1 h2
    exact ⟨entryActions_ignored e w h1 h2, entryCallbacks_ignored e w h1 h2⟩

theorem extract_entry_destinations_witness :
    (StreamItem.readError ∉
      ([StreamItem.next ⟨"nginx.tar".toList, EntryType.file⟩ true,
        StreamItem.next ⟨"charts/demo/Chart.yaml".toList, EntryType.file⟩ true,
        StreamItem.next ⟨"README.md".toList, EntryType.file⟩ true] :
        List StreamItem)) ∧
    (((Extract true true
        [StreamItem.next ⟨"nginx.tar".toList, EntryType.file⟩ true,
         StreamItem.next ⟨"charts/demo/Chart.yaml".toList, EntryType.file⟩ true,
         StreamItem.next ⟨"README.md".toList, EntryType.file⟩ true]).actions =
        ([StreamItem.next ⟨"nginx.tar".toList, EntryType.file⟩ true,
          StreamItem.next ⟨"charts/demo/Chart.yaml".toList, EntryType.file⟩ true,
          StreamItem.next ⟨"README.md".toList, EntryType.file⟩ true] :
            List StreamItem).flatMap itemActions ∧
      (Extract true true
        [StreamItem.next ⟨"nginx.tar".toList, EntryType.file⟩ true,
         StreamItem.next ⟨"charts/demo/Chart.yaml".toList, EntryType.file⟩ true,
         StreamItem.next ⟨"README.md".toList, EntryType.file⟩ true]).callbacks =
        ([StreamItem.next ⟨"nginx.tar".toList, EntryType.file⟩ true,
          StreamItem.next ⟨"charts/demo/Chart.yaml".toList, EntryType.file⟩ true,
          StreamItem.next ⟨"README.md".toList, EntryType.file⟩ true] :
            List StreamItem).flatMap itemCallbacks) ∧
      (∀ e w, StreamItem.next e w ∈
          ([StreamItem.next ⟨"nginx.tar".toList, EntryType.file⟩ true,
            StreamItem.next ⟨"charts/demo/Chart.yaml".toList, EntryType.file⟩ true,
            StreamItem.next ⟨"README.md".toList, EntryType.file⟩ true] :
            List StreamItem) → w = true →
        isImageTar e.name = true →
        FsAction.writeFile (imagesRoot ++ [goBase e.name]) ∈
          (Extract true true
            [StreamItem.next ⟨"nginx.tar".toList, EntryType.file⟩ true,
             StreamItem.next ⟨"charts/demo/Chart.yaml".toList, EntryType.file⟩ true,
             StreamItem.next ⟨"README.md".toList, EntryType.file⟩ true]).actions) ∧
      (∀ e w, StreamItem.next e w ∈
          ([StreamItem.next ⟨"nginx.tar".toList, EntryType.file⟩ true,
            StreamItem.next ⟨"charts/demo/Chart.yaml".toList, EntryType.file⟩ true,
            StreamItem.next ⟨"README.md".toList, EntryType.file⟩ true] :
            List StreamItem) → w = true →
        "charts/".toList.isPrefixOf e.name = true → e.typ = EntryType.file →
        FsAction.writeFile (chartsRoot ++ splitPath (e.name.drop 7)) ∈
          (Extract true true
            [StreamItem.next ⟨"nginx.tar".toList, EntryType.file⟩ true,
             StreamItem.next ⟨"charts/demo/Chart.yaml".toList, EntryType.file⟩ true,
             StreamItem.next ⟨"README.md".toList, EntryType.file⟩ true]).actions) ∧
      (∀ e w, isImageTar e.name = false → isChartFile e.name = false →
        entryActions e w = [] ∧ entryCallbacks e w = [])) :=
  ⟨by decide,
   extract_entry_destinations
     [StreamItem.next ⟨"nginx.tar".toList, EntryType.file⟩ true,
      StreamItem.next ⟨"charts/demo/Chart.yaml".toList, EntryType.file⟩ true,
      StreamItem.next ⟨"README.md".toList, EntryType.file⟩ true]
     (by decide)⟩

/-- C4 counterexample.  The entry `demo/Chart.yaml` is not an
`ImageArtifact` and its path is not under `charts/`, so by the claim it
must produce no file and no discovery callback; the extractor
nevertheless writes it under the charts root and fires the chart
callback, because `isChartFile` also matches any path containing
`Chart.yaml`. -/
theorem extract_entry_destinations_counterexample :
    isImageTar "demo/Chart.yaml".toList = false ∧
    "charts/".toList.isPrefixOf "demo/Chart.yaml".toList = false ∧
    (Extract true true
      [StreamItem.next ⟨"demo/Chart.yaml".toList, EntryType.file⟩ true]).actions =
      [FsAction.makeDir (chartsRoot ++ ["demo".toList]),
       FsAction.writeFile (chartsRoot ++ ["demo".toList, "Chart.yaml".toList])] ∧
    (Extract true true
      [StreamItem.next ⟨"demo/Chart.yaml".toList, EntryType.file⟩ true]).callbacks =
      [CallbackEvent.onChart "demo".toList] := by
  refine ⟨by decide, by decide, by decide, by decide⟩

/-- C5 (amended).  In a stream with no tar read error, the `onChart`
callback fires exactly once per triggering `Chart.yaml` entry — only a
successfully written regular entry whose basename is `Chart.yaml`
triggers it, and the name passed is the basename of the parent directory
of the written file; when each chart directory's `Chart.yaml` arrives in
at most one entry (the triggering target directories are distinct), the
callback therefore fires exactly once per chart directory.  (As frozen —
for *every* streamed archive — the claim is false: an archive may carry
the same `Chart.yaml` entry twice, and then the callback fires twice for
that directory; see the counterexample.) -/
theorem chart_discovery_once (stream : List StreamItem)
    (h : StreamItem.readError ∉ stream) :
    onChartNames (Extract true true stream) =
      (chartDirsOf stream).map segBase ∧
    ((chartDirsOf stream).Nodup →
      ∀ d, (chartDirsOf stream).count d ≤ 1) := by
  constructor
  · rw [onChartNames, Extract_clean stream h]
    exact onChartNames_flatMap stream
  · intro hn d
    exact nodup_count_le_one (chartDirsOf stream) hn d

theorem chart_discovery_once_witness :
    (StreamItem.readError ∉
      ([StreamItem.next ⟨"charts/demo/templates/x.yaml".toList, EntryType.file⟩ true,
        StreamItem.next ⟨"charts/demo/Chart.yaml".toList, EntryType.file⟩ true] :
        List StreamItem)) ∧
    (onChartNames (Extract true true
        [StreamItem.next ⟨"charts/demo/templates/x.yaml".toList, EntryType.file⟩ true,
         StreamItem.next ⟨"charts/demo/Chart.yaml".toList, EntryType.file⟩ true]) =
      (chartDirsOf
        [StreamItem.next ⟨"charts/demo/templates/x.yaml".toList, EntryType.file⟩ true,
         StreamItem.next ⟨"charts/demo/Chart.yaml".toList, EntryType.file⟩ true]).map
        segBase ∧
    ((chartDirsOf
        [StreamItem.next ⟨"charts/demo/templates/x.yaml".toList, EntryType.file⟩ true,
         StreamItem.next ⟨"charts/demo/Chart.yaml".toList, EntryType.file⟩ true]).Nodup →
      ∀ d, (chartDirsOf
        [StreamItem.next ⟨"charts/demo/templates/x.yaml".toList, EntryType.file⟩ true,
         StreamItem.next ⟨"charts/demo/Chart.yaml".toList, EntryType.file⟩ true]).count d
          ≤ 1)) :=
  ⟨by decide,
   chart_discovery_once
     [StreamItem.next ⟨"charts/demo/templates/x.yaml".toList, EntryType.file⟩ true,
      StreamItem.next ⟨"charts/demo/Chart.yaml".toList, EntryType.file⟩ true]
     (by decide)⟩

/-- C5 counterexample.  An archive delivering the entry
`charts/demo/Chart.yaml` twice makes `onChart` fire twice for the single
chart directory `<chartsDir>/demo`, refuting «fires exactly once per
chart directory» for arbitrary streamed archives. -/
theorem chart_discovery_once_counterexample :
    (Extract true true
      [StreamItem.next ⟨"charts/demo/Chart.yaml".toList, EntryType.file⟩ true,
       StreamItem.next ⟨"charts/demo/Chart.yaml".toList, EntryType.file⟩ true]).callbacks =
      [CallbackEvent.onChart "demo".toList, CallbackEvent.onChart "demo".toList] ∧
    chartDirsOf
      [StreamItem.next ⟨"charts/demo/Chart.yaml".toList, EntryType.file⟩ true,
       StreamItem.next ⟨"charts/demo/Chart.yaml".toList, EntryType.file⟩ true] =
      [chartsRoot ++ ["demo".toList], chartsRoot ++ ["demo".toList]] := by
  refine ⟨by decide, by decide⟩

/-- C8 (amended).  `Extract` returns an error exactly when the creation
of one of the two destination root directories fails or when reading the
next tar header from the stream fails; a per-entry extraction failure is
skipped — the failing entry contributes no effect and the remaining
entries are processed exactly as if it were absent — and does not make
`Extract` fail.  (As frozen — root-directory creation as the *only*
error source — the claim is false: a tar read error also aborts the
call; see the counterexample.) -/
theorem extract_error_policy (mi mc : Bool) (stream xs ys : List StreamItem)
    (e : TarEntry) :
    ((Extract mi mc stream).err.isSome = true ↔
      (mi = false ∨ mc = false ∨ StreamItem.readError ∈ stream)) ∧
    Extract true true (xs ++ StreamItem.next e false :: ys) =
      Extract true true (xs ++ ys) := by
  constructor
  · cases mi with
    | false => simp [Extract]
    | true =>
        cases mc with
        | false => simp [Extract]
        | true =>
            rw [Extract, if_neg (by decide), if_neg (by decide)]
            simpa using extractLoop_err_iff stream
  · rw [Extract, Extract, if_neg (by decide), if_neg (by decide),
      if_neg (by decide), if_neg (by decide), extractLoop_skip]

/-- C8 counterexample.  Both destination roots are created successfully
(`mkImagesDirOk = mkChartsDirOk = true`), yet `Extract` returns an error
because reading the next tar header fails. -/
theorem extract_error_policy_counterexample :
    (Extract true true [StreamItem.readError]).err = some "tar read error" := by
  decide

/-! ## Helper lemmas: readiness polling and the boot pipeline -/

theorem pollAux_never (check : Nat → Bool) :
    ∀ (fuel t : Nat), (∀ i, i < fuel → check (t + i) = false) →
      pollAux check t fuel = false := by
  intro fuel
  induction fuel with
  | zero => intro t _; rfl
  | succ f ih =>
      intro t h
      have h0 : check t = false := by simpa using h 0 (Nat.succ_pos f)
      simp only [pollAux, h0, Bool.false_eq_true, if_false]
      refine ih (t + 1) fun i hi => ?_
      have hidx : t + 1 + i = t + (i + 1) := by omega
      rw [hidx]
      exact h (i + 1) (Nat.succ_lt_succ hi)

theorem waitForKubeconfig_timeout (fileExists : Nat → Bool)
    (h : ∀ t, t < 120 → fileExists t = false) :
    waitForKubeconfig fileExists =
      Except.error "timeout waiting for kubeconfig" := by
  have hfalse : pollAux fileExists 0 120 = false :=
    pollAux_never fileExists 120 0 fun i hi => by simpa using h i hi
  rw [waitForKubeconfig, if_neg (by simp [hfalse])]

theorem waitForReady_timeout (responses : Nat → List (Option Nat))
    (h : ∀ t, t < 150 → readyResponse (responses t) = false) :
    waitForReady responses = Except.error "timeout waiting for k3s API" := by
  have hfalse : pollAux (fun t => readyResponse (responses t)) 0 150 = false :=
    pollAux_never _ 150 0 fun i hi => by simpa using h i hi
  rw [waitForReady, if_neg (by simp [hfalse])]

theorem k3sStart_err (env : BootEnv)
    (h : env.processStartOk = false ∨
         (∀ t, t < 120 → env.fileExists t = false) ∨
         (∀ t, t < 150 → readyResponse (env.responses t) = false)) :
    ∃ msg, k3sStart env = Except.error msg := by
  by_cases hp : env.processStartOk = true
  · rcases h with h | h | h
    · rw [hp] at h; cases h
    · exact ⟨"timeout waiting for kubeconfig",
        by rw [k3sStart, if_neg (by simp [hp]),
          waitForKubeconfig_timeout env.fileExists h]⟩
    · rw [k3sStart, if_neg (by simp [hp])]
      cases hk : waitForKubeconfig env.fileExists with
      | error e => exact ⟨e, rfl⟩
      | ok u =>
          cases u
          exact ⟨"timeout waiting for k3s API",
            waitForReady_timeout env.responses h⟩
  · have hp0 : env.processStartOk = false := by simpa using hp
    exact ⟨"failed to start k3s", by rw [k3sStart, if_pos (by simp [hp0])]⟩

theorem installLoop_failures_nil_iff (charts : List ChartSpec) :
    ((installLoop charts).2 = [] ↔ ∀ c ∈ charts, chartFailed c = false) := by
  rw [installLoop_failures]
  constructor
  · intro h c hc
    rw [List.map_eq_nil_iff, List.filter_eq_nil_iff] at h
    have := h c hc
    simpa using this
  · intro h
    have hnil : charts.filter chartFailed = [] :=
      List.filter_eq_nil_iff.mpr fun c hc => by simp [h c hc]
    rw [hnil]
    rfl

theorem finalPhase_succeeded_iff (c : ChartSpec) :
    (chartFailed c = false ↔ finalPhase c = Phase.succeeded) := by
  rcases c with ⟨n, iok, tok⟩
  cases iok <;> cases tok <;> simp [chartFailed, finalPhase]

theorem finalPhase_failed_iff (c : ChartSpec) :
    (chartFailed c = true ↔ finalPhase c = Phase.failed) := by
  rcases c with ⟨n, iok, tok⟩
  cases iok <;> cases tok <;> simp [chartFailed, finalPhase]

theorem installChartsFull_true_events (charts : List ChartSpec) :
    (InstallChartsFull true true charts).1 = (installLoop charts).1 := by
  rw [InstallChartsFull, if_neg (by decide), if_neg (by decide)]

theorem installChartsFull_none_failures (charts : List ChartSpec)
    (h : (InstallChartsFull true true charts).2 = none) :
    ∀ c ∈ charts, chartFailed c = false := by
  rw [InstallChartsFull, if_neg (by decide), if_neg (by decide)] at h
  refine (installLoop_failures_nil_iff charts).mp ?_
  by_cases hie : (installLoop charts).2.isEmpty = true
  · exact List.isEmpty_iff.mp hie
  · rw [if_neg hie] at h
    cases h

theorem installChartsFull_some_failed (charts : List ChartSpec)
    (err : HelmError) (h : (InstallChartsFull true true charts).2 = some err) :
    ∃ c ∈ charts, chartFailed c = true := by
  rw [InstallChartsFull, if_neg (by decide), if_neg (by decide)] at h
  by_cases hie : (installLoop charts).2.isEmpty = true
  · rw [if_pos hie] at h
    cases h
  · have hne : (installLoop charts).2 ≠ [] := by
      intro hnil
      exact hie (by simp [hnil])
    by_contra hall
    push_neg at hall
    exact hne ((installLoop_failures_nil_iff charts).mpr
      fun c hc => by simpa using hall c hc)

theorem installChartsFull_ensure (dok : Bool) (charts : List ChartSpec) :
    InstallChartsFull false dok charts = ([], some HelmError.ensureBinaryFailed) := by
  rw [InstallChartsFull, if_pos (by decide)]

theorem installChartsFull_discover (charts : List ChartSpec) :
    InstallChartsFull true false charts = ([], some HelmError.discoverFailed) := by
  rw [InstallChartsFull, if_neg (by decide), if_pos (by decide)]

/-! ## Claim theorems (boot pipeline) -/

/-- C6.  Whenever cluster boot fails — the process fails to start, the
kubeconfig file does not appear within its 60-second polling window
(120 polls at 500ms), or no health endpoint answers 200/401 within the
5-minute readiness window (150 polls at 2s) — `Start` returns an error
and the background pipeline transitions the lifecycle to `Starting` and
then back to `Idle`; the run never reaches `Ready`. -/
theorem boot_failure_reverts_to_idle (env : BootEnv)
    (importOk ensureHelmOk discoverOk : Bool) (charts : List ChartSpec)
    (h : env.processStartOk = false ∨
         (∀ t, t < 120 → env.fileExists t = false) ∨
         (∀ t, t < 150 → readyResponse (env.responses t) = false)) :
    (∃ msg, k3sStart env = Except.error msg) ∧
    (startK3s env importOk ensureHelmOk discoverOk charts).states =
      [State.starting, State.idle] ∧
    State.ready ∉ (startK3s env importOk ensureHelmOk discoverOk charts).states := by
  obtain ⟨msg, hmsg⟩ := k3sStart_err env h
  refine ⟨⟨msg, hmsg⟩, ?_, ?_⟩
  · simp [startK3s, hmsg]
  · simp [startK3s, hmsg]

theorem boot_failure_reverts_to_idle_witness :
    ((⟨false, fun _ => false, fun _ => []⟩ : BootEnv).processStartOk = false ∨
     (∀ t, t < 120 →
        (⟨false, fun _ => false, fun _ => []⟩ : BootEnv).fileExists t = false) ∨
     (∀ t, t < 150 →
        readyResponse
          ((⟨false, fun _ => false, fun _ => []⟩ : BootEnv).responses t) = false)) ∧
    ((∃ msg, k3sStart ⟨false, fun _ => false, fun _ => []⟩ = Except.error msg) ∧
     (startK3s ⟨false, fun _ => false, fun _ => []⟩ true true true []).states =
       [State.starting, State.idle] ∧
     State.ready ∉
       (startK3s ⟨false, fun _ => false, fun _ => []⟩ true true true []).states) :=
  ⟨Or.inl rfl,
   boot_failure_reverts_to_idle ⟨false, fun _ => false, fun _ => []⟩
     true true true [] (Or.inl rfl)⟩

/-- C9 (amended).  Every background pipeline run emits exactly one
terminal `complete`-level log event carrying a machine-parseable
`COMPLETE:` marker; the marker signals success iff the lifecycle reached
`Ready` and `InstallCharts` returned no error — equivalently, when the
helm binary is ensured and discovery succeeds, iff the lifecycle reached
`Ready` and every chart's final recorded phase is `Succeeded`; and any
`Failed` chart phase yields the failure marker while the lifecycle still
reaches and stays at `Ready`.  (As frozen — success iff Ready and all
phases Succeeded, over *every* run — the claim is false: a run whose
helm-binary bootstrap fails emits the failure marker although the
lifecycle reached `Ready` and no chart phase is `Failed`; see the
counterexample.) -/
theorem completion_marker_semantics (env : BootEnv) (importOk eh dok : Bool)
    (charts : List ChartSpec) (h : (charts.map ChartSpec.name).Nodup) :
    (completionMarkers (startK3s env importOk eh dok charts)).length = 1 ∧
    (completionMarkers (startK3s env importOk eh dok charts) =
        ["COMPLETE:SUCCESS:All tests passed"] ↔
      (State.ready ∈ (startK3s env importOk eh dok charts).states ∧
        InstallCharts eh dok charts = none)) ∧
    (eh = true → dok = true →
      (completionMarkers (startK3s env importOk eh dok charts) =
          ["COMPLETE:SUCCESS:All tests passed"] ↔
        (State.ready ∈ (startK3s env importOk eh dok charts).states ∧
          ∀ c ∈ charts,
            runSnap (startK3s env importOk eh dok charts) c.name =
              some Phase.succeeded))) ∧
    ((∃ c ∈ charts,
        runSnap (startK3s env importOk eh dok charts) c.name =
          some Phase.failed) →
      completionMarkers (startK3s env importOk eh dok charts) =
        ["COMPLETE:FAILED:Tests failed"] ∧
      (startK3s env importOk eh dok charts).states.getLast? =
        some State.ready) := by
  cases hks : k3sStart env with
  | error e =>
      have hmark : completionMarkers (startK3s env importOk eh dok charts) =
          ["COMPLETE:FAILED:K3s startup failed"] := by
        simp [startK3s, hks, completionMarkers]
      have hstates : (startK3s env importOk eh dok charts).states =
          [State.starting, State.idle] := by
        simp [startK3s, hks]
      have hhev : (startK3s env importOk eh dok charts).helmEvents = [] := by
        simp [startK3s, hks]
      refine ⟨by rw [hmark]; rfl, ?_, ?_, ?_⟩
      · rw [hmark, hstates]
        simp
      · intro _ _
        rw [hmark, hstates]
        simp
      · rintro ⟨c, _, hsnap⟩
        rw [runSnap, hhev] at hsnap
        simp [statusUpdates, snapshot] at hsnap
  | ok u =>
      cases u
      have hstates : (startK3s env importOk eh dok charts).states =
          [State.starting, State.ready] := by
        simp [startK3s, hks]
      have hhev : (startK3s env importOk eh dok charts).helmEvents =
          (InstallChartsFull eh dok charts).1 := by
        simp [startK3s, hks]
      cases hhe : (InstallChartsFull eh dok charts).2 with
      | none =>
          have hmark : completionMarkers (startK3s env importOk eh dok charts) =
              ["COMPLETE:SUCCESS:All tests passed"] := by
            cases importOk <;>
              simp [startK3s, hks, hhe, completionMarkers, List.filter_append]
          have hehdok : eh = true ∧ dok = true := by
            cases eh
            · rw [installChartsFull_ensure dok charts] at hhe
              cases hhe
            · cases dok
              · rw [installChartsFull_discover charts] at hhe
                cases hhe
              · exact ⟨rfl, rfl⟩
          obtain ⟨heh, hdok⟩ := hehdok
          subst heh
          subst hdok
          have hok : ∀ c ∈ charts, chartFailed c = false :=
            installChartsFull_none_failures charts hhe
          have hsnapc : ∀ c ∈ charts,
              runSnap (startK3s env importOk true true charts) c.name =
                some Phase.succeeded := by
            intro c hc
            rw [runSnap, hhev, installChartsFull_true_events,
              snapshot_run charts h c hc,
              (finalPhase_succeeded_iff c).mp (hok c hc)]
          refine ⟨by rw [hmark]; rfl, ?_, ?_, ?_⟩
          · rw [hmark, hstates]
            simp [InstallCharts, hhe]
          · intro _ _
            rw [hmark, hstates]
            constructor
            · intro _
              exact ⟨by simp, hsnapc⟩
            · intro _
              rfl
          · rintro ⟨c, hc, hsnap⟩
            rw [hsnapc c hc] at hsnap
            cases hsnap
      | some err =>
          have hmark : completionMarkers (startK3s env importOk eh dok charts) =
              ["COMPLETE:FAILED:Tests failed"] := by
            cases importOk <;>
              simp [startK3s, hks, hhe, completionMarkers, List.filter_append]
          refine ⟨by rw [hmark]; rfl, ?_, ?_, ?_⟩
          · rw [hmark]
            simp [InstallCharts, hhe]
          · intro heh hdok
            subst heh
            subst hdok
            rw [hmark, hstates]
            obtain ⟨c0, hc0, hcf0⟩ :=
              installChartsFull_some_failed charts err hhe
            have hsnap0 :
                runSnap (startK3s env importOk true true charts) c0.name =
                  some Phase.failed := by
              rw [runSnap, hhev, installChartsFull_true_events,
                snapshot_run charts h c0 hc0,
                (finalPhase_failed_iff c0).mp hcf0]
            constructor
            · intro hfalse
              exact absurd hfalse (by decide)
            · rintro ⟨_, hall⟩
              have hcontra := hall c0 hc0
              rw [hsnap0] at hcontra
              exact absurd hcontra (by decide)
          · intro _
            exact ⟨hmark, by rw [hstates]; rfl⟩

theorem completion_marker_semantics_witness :
    ((([⟨"alpha", true, true⟩] : List ChartSpec).map ChartSpec.name).Nodup) ∧
    ((completionMarkers (startK3s bootOkEnv true true true
        [⟨"alpha", true, true⟩])).length = 1 ∧
     (completionMarkers (startK3s bootOkEnv true true true
          [⟨"alpha", true, true⟩]) =
        ["COMPLETE:SUCCESS:All tests passed"] ↔
      (State.ready ∈ (startK3s bootOkEnv true true true
          [⟨"alpha", true, true⟩]).states ∧
        InstallCharts true true [⟨"alpha", true, true⟩] = none)) ∧
     (true = true → true = true →
      (completionMarkers (startK3s bootOkEnv true true true
          [⟨"alpha", true, true⟩]) =
        ["COMPLETE:SUCCESS:All tests passed"] ↔
      (State.ready ∈ (startK3s bootOkEnv true true true
          [⟨"alpha", true, true⟩]).states ∧
        ∀ c ∈ ([⟨"alpha", true, true⟩] : List ChartSpec),
          runSnap (startK3s bootOkEnv true true true
            [⟨"alpha", true, true⟩]) c.name = some Phase.succeeded))) ∧
     ((∃ c ∈ ([⟨"alpha", true, true⟩] : List ChartSpec),
        runSnap (startK3s bootOkEnv true true true
          [⟨"alpha", true, true⟩]) c.name = some Phase.failed) →
      completionMarkers (startK3s bootOkEnv true true true
        [⟨"alpha", true, true⟩]) = ["COMPLETE:FAILED:Tests failed"] ∧
      (startK3s bootOkEnv true true true
        [⟨"alpha", true, true⟩]).states.getLast? = some State.ready)) :=
  ⟨by decide,
   completion_marker_semantics bootOkEnv true true true
     [⟨"alpha", true, true⟩] (by decide)⟩

/-- C9 counterexample.  A run in which K3s boots but the helm binary
cannot be ensured: the lifecycle reaches (and stays at) `Ready`, no
chart phase was ever recorded (so no phase is `Failed`, and «every chart
phase ended in Succeeded» holds vacuously), yet the terminal marker
signals failure — refuting «the marker signals overall success if and
only if the lifecycle reached Ready and every chart phase ended in
Succeeded». -/
theorem completion_marker_semantics_counterexample :
    (startK3s bootOkEnv true false true []).states =
      [State.starting, State.ready] ∧
    (startK3s bootOkEnv true false true []).helmEvents = [] ∧
    completionMarkers (startK3s bootOkEnv true false true []) =
      ["COMPLETE:FAILED:Tests failed"] := by
  refine ⟨by decide, by decide, by decide⟩

/-! ## Helper lemmas: log bus / websocket observer -/

theorem busRun_append (s : BusState) (l1 l2 : List BusOp) :
    busRun s (l1 ++ l2) = busRun (busRun s l1) l2 := by
  induction l1 generalizing s with
  | nil => rfl
  | cons op rest ih => cases op <;> simp [busRun, ih]

theorem lastN_length_le (n : Nat) (l : List α) : (lastN n l).length ≤ n := by
  unfold lastN
  rw [List.length_drop]
  omega

theorem lastN_absorb (n : Nat) (l ms : List α) :
    lastN n (lastN n l ++ ms) = lastN n (l ++ ms) := by
  unfold lastN
  have h1 : l.length - n ≤ l.length := Nat.sub_le _ _
  rw [← List.drop_append_of_le_length h1, List.drop_drop]
  congr 1
  simp only [List.length_append, List.length_drop]
  omega

theorem busRun_adds (ms : List String) :
    ∀ (s : BusState), s.buffer.length ≤ s.cap →
      busRun s (ms.map BusOp.add) =
        { cap := s.cap, buffer := lastN s.cap (s.buffer ++ ms),
          clients := s.clients.map fun cl => (cl.1, cl.2 ++ ms) } := by
  induction ms with
  | nil =>
      intro s hs
      have hz : s.buffer.length - s.cap = 0 := Nat.sub_eq_zero_of_le hs
      simp [busRun, lastN, hz]
  | cons m ms ih =>
      intro s hs
      have hlen1 : (s.buffer ++ [m]).length = s.buffer.length + 1 := by simp
      have hstep : (busAdd s m).buffer = lastN s.cap (s.buffer ++ [m]) := by
        simp only [busAdd]
        by_cases hlt : s.cap < (s.buffer ++ [m]).length
        · rw [if_pos hlt]
          unfold lastN
          have hidx : (s.buffer ++ [m]).length - s.cap = 1 := by
            rw [hlen1] at hlt ⊢
            omega
          rw [hidx]
        · rw [if_neg hlt]
          unfold lastN
          have hidx : (s.buffer ++ [m]).length - s.cap = 0 := by
            rw [hlen1] at hlt ⊢
            omega
          rw [hidx, List.drop_zero]
      have hinv : (busAdd s m).buffer.length ≤ (busAdd s m).cap := by
        rw [hstep]
        exact lastN_length_le s.cap (s.buffer ++ [m])
      simp only [List.map_cons, busRun]
      rw [ih (busAdd s m) hinv]
      have hcap : (busAdd s m).cap = s.cap := rfl
      have hclients : (busAdd s m).clients =
          s.clients.map fun cl => (cl.1, cl.2 ++ [m]) := rfl
      rw [hcap, hstep, hclients]
      congr 1
      · rw [lastN_absorb]
        congr 1
        simp
      · rw [List.map_map]
        refine List.map_congr_left fun cl _ => ?_
        simp

/-! ## Claim theorem (log bus) -/

/-- C7.  A subscriber that joins the websocket observer path after the
events `ms1` were added and before the next event is added first
receives the current buffer contents — the most recent
`min (ms1.length) cap` events, in order — and then every event added
afterwards (`ms2`), in order, with no duplicate and no gap in the live
portion: its received sequence is exactly the backlog snapshot followed
by `ms2`. -/
theorem subscriber_backlog_then_live (cap c : Nat) (ms1 ms2 : List String) :
    received (busRun (initBus cap)
        (ms1.map BusOp.add ++ BusOp.join c :: ms2.map BusOp.add)) c =
      some (lastN cap ms1 ++ ms2) := by
  rw [busRun_append, busRun_adds ms1 (initBus cap) (by simp [initBus])]
  simp only [initBus, List.nil_append, List.map_nil]
  simp only [busRun, busJoin, List.nil_append]
  rw [busRun_adds ms2
    { cap := cap, buffer := lastN cap ms1, clients := [(c, lastN cap ms1)] }
    (lastN_length_le cap ms1)]
  simp [received, List.find?]

end KubeParcel
